import Mathlib

/-!
# Verification of the PDMS learning-company scraper

A shallow embedding of `src/scrape_pdms.py` (a Playwright-driven screen
scraper for a cascading-dropdown search form) together with theorems
settling the specification's claims about it.

Stateful browser interactions are embedded as pure functions over explicit
models of the observable DOM state; external automation primitives (the
Playwright calls themselves) enter as oracle parameters recording their
observable outcome, and every Python exception path is an explicit
`Except`/`Option` value.
-/

set_option autoImplicit false

namespace ScrapePdms

/-- Source line 15: the target document address. -/
def URL : String := "https://pdms.ncs.go.kr/cmn/pub/opr/retrieveOprLrnEntrprList.do"

/-- Source lines 17-21: the fixed seed list of region names driven by the sweep. -/
def REGIONS : List String :=
  ["서울", "경기", "인천", "강원", "충북", "충남",
   "대전", "경북", "대구", "전북", "경남", "울산",
   "부산", "광주", "전남", "제주", "세종"]

/-- Source line 23: the per-combination page cap (`MAX_PAGES_PER_COMBO = 3`). -/
def MAX_PAGES_PER_COMBO : Nat := 3

/-- The placeholder option label `"선택"` that the sweep filters out of every
option enumeration (source lines 212, 232, 235). -/
def placeholderLabel : String := "선택"

/-- Source line 38: default `timeout_ms` argument of `wait_options_loaded`. -/
def wait_options_timeout_ms : Nat := 10000

/-- Source line 51: the poll interval of `wait_options_loaded` (`time.sleep(0.2)`),
in milliseconds. -/
def wait_poll_interval_ms : Nat := 200

/-- The whitespace-stripping applied by the source's `.strip()` (Python) and
`.trim()` (JS) calls: drop whitespace characters from both ends. Implemented
structurally over the character list so that it evaluates on concrete input. -/
def strip (s : String) : String :=
  String.mk (((s.data.dropWhile Char.isWhitespace).reverse.dropWhile
    Char.isWhitespace).reverse)

/-! ## Context Locator (`find_target_frame`, source lines 26-36)

The observable page state is the combobox count of the main document plus, for
each embedded frame in order, either `some c` (querying the frame succeeds and
reports `c` comboboxes) or `none` (the query raises; the `except` clause at
source lines 34-35 swallows the exception and moves on). -/

/-- Page state for the Context Locator. -/
structure PageModel where
  mainComboboxCount : Nat
  frames : List (Option Nat)
deriving DecidableEq, Repr

/-- A browsing context: the main document or the frame at a given index. -/
inductive Ctx where
  | mainDoc : Ctx
  | frame (idx : Nat) : Ctx
deriving DecidableEq, Repr

/-- The `for f in page.frames` loop of `find_target_frame` (source lines 30-35):
index of the first frame whose combobox query succeeds with a positive count. -/
def firstFrameWithCombobox : List (Option Nat) → Option Nat
  | [] => none
  | some c :: rest =>
    if 0 < c then some 0 else (firstFrameWithCombobox rest).map (· + 1)
  | none :: rest => (firstFrameWithCombobox rest).map (· + 1)

/-- `find_target_frame` (source lines 26-36): return the page itself if it shows
at least one combobox; otherwise the first frame that does; otherwise the page.
Total: no branch raises. -/
def find_target_frame (p : PageModel) : Ctx :=
  if 0 < p.mainComboboxCount then .mainDoc
  else
    match firstFrameWithCombobox p.frames with
    | some i => .frame i
    | none => .mainDoc

/-- Modelled from the spec (§4.1), for comparison with `find_target_frame`: score
every candidate context (main document plus each frame, unobservable frames
scoring 0) by its count of selectable controls, return the highest scorer, and
default to the main document on a tie or when no context exposes any control. -/
def spec_find_target_frame (p : PageModel) : Ctx :=
  let fs := p.frames.map (fun f => f.getD 0)
  let best := fs.foldr max p.mainComboboxCount
  if best = 0 then .mainDoc
  else if p.mainComboboxCount = best then .mainDoc
  else if 2 ≤ fs.count best then .mainDoc
  else .frame (fs.indexOf best)

/-! ## Option enumeration (`list_options_text`, source lines 53-59)

A `select` control's options are modelled by the list of their raw
`inner_text()` strings in document order. -/

/-- `list_options_text` (source lines 53-59): strip each option's text and keep
the non-empty results, in document order (`if t: out.append(t)`). -/
def list_options_text : List String → List String
  | [] => []
  | o :: rest =>
    let t := strip o
    if t ≠ "" then t :: list_options_text rest else list_options_text rest

/-! ## Result table parser (`extract_rows_from_table`, source lines 100-115)

A table body is modelled as the list of its rows, each row the list of its
`td` cells' raw `inner_text()` strings. -/

/-- One extracted result row. Field keys in the source dict: `"NO"`,
`"학습기업명"`, `"참여신청유형"`, `"주소"`, `"종목"`. -/
structure ExtractedRow where
  no_ : String
  companyName : String
  applyType : String
  address : String
  category : String
deriving DecidableEq, Repr

/-- The `safe` lambda (source line 107): the stripped text of cell `idx`, or
`""` when the row has no cell there. -/
def safeCell (tds : List String) (idx : Nat) : String :=
  if idx < tds.length then strip (tds.getD idx "") else ""

/-- `extract_rows_from_table` (source lines 100-115): iterate body rows, skip a
row with zero cells (`if c == 0: continue`), otherwise emit the five-field
record built with `safe`. -/
def extract_rows_from_table : List (List String) → List ExtractedRow
  | [] => []
  | tds :: rest =>
    if tds.length = 0 then extract_rows_from_table rest
    else
      { no_ := safeCell tds 0
        companyName := safeCell tds 1
        applyType := safeCell tds 2
        address := safeCell tds 3
        category := safeCell tds 4 } :: extract_rows_from_table rest

/-! ## Cascading selection (`select_by_label_with_fallback`, source lines 61-78) -/

/-- One `<option>` element: its text and its value attribute. -/
structure OptionEl where
  text : String
  value : String
deriving DecidableEq, Repr

/-- Observable outcome of `select_by_label_with_fallback`: the native call
succeeded; or the JS fallback assigned this option value (and dispatched the
control's `change` event); or the fallback threw `"label not found: " + label`. -/
inductive SelectOutcome where
  | nativeSelected : SelectOutcome
  | fallbackSelected (value : String) : SelectOutcome
  | labelNotFound (label : String) : SelectOutcome
deriving DecidableEq, Repr

/-- `select_by_label_with_fallback` (source lines 61-78). The native
`select_option(label=...)` call is an external automation primitive; the oracle
`nativeOk` records whether it succeeds. On failure the JS fallback runs:
`options.find(o => o.text.trim() === label)`, then assigns the hit's value and
dispatches `change`, or throws when there is no hit. -/
def select_by_label_with_fallback (nativeOk : Bool) (options : List OptionEl)
    (label_text : String) : SelectOutcome :=
  if nativeOk then .nativeSelected
  else
    match options.find? (fun o => strip o.text == label_text) with
    | some hit => .fallbackSelected hit.value
    | none => .labelNotFound label_text

/-! ## Stable rebinding (`SelectSignature`, source lines 124-146)

A context is modelled as the list of its combobox-role controls in document
order (a native `<select>` always carries the combobox role, so the `<select>`
elements are the sublist with `tagSelect = true`). -/

/-- One combobox-role control in a context. -/
structure DomControl where
  tagSelect : Bool
  idAttr : Option String
  nameAttr : Option String
  accName : Option String
deriving DecidableEq, Repr

/-- `SelectSignature` (source lines 124-129). `css_by_id` stores the id of a
`select#<id>` selector when the control had an id attribute, `css_by_name`
likewise the name of a `select[name='<name>']` selector. -/
structure SelectSignature where
  css_by_id : Option String
  css_by_name : Option String
  index : Nat
deriving DecidableEq, Repr

/-- `ctx.locator("select#<id>") ... loc.first`: first `<select>` with this id. -/
def selectById (ctx : List DomControl) (i : String) : Option DomControl :=
  (ctx.filter fun c => c.tagSelect && c.idAttr == some i).head?

/-- `ctx.locator("select[name='<n>']") ... loc.first`: first `<select>` with
this name attribute. -/
def selectByName (ctx : List DomControl) (n : String) : Option DomControl :=
  (ctx.filter fun c => c.tagSelect && c.nameAttr == some n).head?

/-- `SelectSignature.query` (source lines 131-146): id match, then name match,
then the `index`-th `<select>`, then the `index`-th combobox-role control;
`none` models the `RuntimeError` raised when all four steps fail. -/
def SelectSignature.query (sig : SelectSignature) (ctx : List DomControl) :
    Option DomControl :=
  match sig.css_by_id.bind fun i => selectById ctx i with
  | some c => some c
  | none =>
    match sig.css_by_name.bind fun n => selectByName ctx n with
    | some c => some c
    | none =>
      match (ctx.filter fun c => c.tagSelect).get? sig.index with
      | some c => some c
      | none => ctx.get? sig.index

/-- First-success chaining of two resolution strategies. -/
def optOr {α : Type} (a b : Option α) : Option α :=
  match a with
  | some x => some x
  | none => b

/-- The role tags of the spec's data model (§3, `roleHint`). -/
inductive RoleHint where
  | region : RoleHint
  | subregion : RoleHint
  | category : RoleHint
deriving DecidableEq, Repr

/-- The accessible labels the source tries per role (source lines 191-202):
`"지역"`, `"지사"`, and `"참여유형명"`/`"참여유형"`. -/
def roleLabels : RoleHint → List String
  | .region => ["지역"]
  | .subregion => ["지사"]
  | .category => ["참여유형명", "참여유형"]

/-- Modelled from the spec: the source has no classification routine for
`SelectSignature.query` to call, so the "second full classification pass" named
by §4.3 is modelled from §4.2's first strategy (accessible-label match): the
first control whose accessible name is one of the role's known labels. -/
def classifyByLabel (ctx : List DomControl) (r : RoleHint) : Option DomControl :=
  (ctx.filter fun c =>
    match c.accName with
    | some n => (roleLabels r).contains n
    | none => false).head?

/-! ## Pagination walker (source lines 117-121 and 274-285) -/

/-- `click_next_if_possible` (source lines 117-121) over the abstract pager of
the claim: with `totalPages` result pages, a real enabled "다음" link exists
exactly on pages `1 .. totalPages - 1`, so clicking next succeeds iff the
current page is below `totalPages`. -/
def click_next_if_possible (totalPages current : Nat) : Bool :=
  decide (current < totalPages)

/-- The pagination `while page_count < MAX_PAGES_PER_COMBO` loop (source lines
276-285), with the loop counter replaced by the remaining iteration budget
`remaining = cap - page_count` (the guard `page_count < cap` is exactly
`remaining > 0`). Returns the page numbers visited inside the loop. -/
def pagLoop (totalPages : Nat) : Nat → Nat → List Nat
  | 0, _ => []
  | remaining + 1, current =>
    if click_next_if_possible totalPages current then
      (current + 1) :: pagLoop totalPages remaining (current + 1)
    else []

/-- Pages visited for one combination (source lines 267-285): the first results
page is parsed before the loop starts (`page_count = 1`), then the loop walks
"next" while `page_count < cap`. -/
def paginationWalk (totalPages cap : Nat) : List Nat :=
  1 :: pagLoop totalPages (cap - 1) 1

/-! ## The sweep's combination enumeration (`run`, source lines 210-246)

The DOM/server behaviour the sweep observes, as a pure environment: the region
select's option texts at startup, the branch select's option texts once a
region is selected, and the type select's option texts as a function of the
selected region and the selected branch (`none` = no branch selected yet, the
state in which `run` performs its read at source line 235). -/

/-- Observable option sets of the three cascading selects. -/
structure SweepEnv where
  regionOptions : List String
  branchOptions : String → List String
  typeOptions : String → Option String → List String

/-- `regions_on_site` (source line 212): enumerated region labels minus the
placeholder. -/
def regionsOnSite (env : SweepEnv) : List String :=
  (list_options_text env.regionOptions).filter (fun x => x != placeholderLabel)

/-- The (region, branch, type) combinations `run` drives (source lines
216-246): per region (seed order, skipping regions absent from the live list),
the branch and type option lists are read once, right after the region is
selected and before any branch is selected, and then reused for every
(branch, type) pair of that region. -/
def codeCombos (env : SweepEnv) : List (String × String × String) :=
  (REGIONS.filter fun r => (regionsOnSite env).contains r).flatMap fun region =>
    let branch_opts :=
      (list_options_text (env.branchOptions region)).filter
        (fun x => x != placeholderLabel)
    let type_opts :=
      (list_options_text (env.typeOptions region none)).filter
        (fun x => x != placeholderLabel)
    branch_opts.flatMap fun branch =>
      type_opts.map fun typ => (region, branch, typ)

/-- Modelled from the spec (§3 invariant), for comparison with `codeCombos`:
the category option values used for a combination are read live after the
upstream subregion value has been selected, never cached across combinations. -/
def specLiveCombos (env : SweepEnv) : List (String × String × String) :=
  (REGIONS.filter fun r => (regionsOnSite env).contains r).flatMap fun region =>
    let branch_opts :=
      (list_options_text (env.branchOptions region)).filter
        (fun x => x != placeholderLabel)
    branch_opts.flatMap fun branch =>
      ((list_options_text (env.typeOptions region (some branch))).filter
        (fun x => x != placeholderLabel)).map fun typ => (region, branch, typ)

/-! ## Error propagation through the sweep (`run`, source lines 240-299)

One result row with the combination labels merged in (`r.update({...})`,
source line 271). -/

/-- An `ExtractedRow` plus the combination under which it was observed
(keys `"지역"`, `"지사"`, `"참여유형명"`). -/
structure FullRow extends ExtractedRow where
  region : String
  branch : String
  typeName : String
deriving DecidableEq, Repr

/-- The uncaught Python exceptions that can escape the per-combination body. -/
inductive RunErr where
  | optionsNotLoaded : RunErr
  | labelNotFound : RunErr
  | rebindFailed : RunErr
  | submitNotFound : RunErr
deriving DecidableEq, Repr

/-- Oracle outcomes of the external automation steps of one combination body
(source lines 242-285), in program order, plus the rows its pages yield. -/
structure ComboSteps where
  rebindOk : Bool
  selectRegionOk : Bool
  waitBranchOk : Bool
  selectBranchOk : Bool
  waitTypeOk : Bool
  selectTypeOk : Bool
  submitOk : Bool
  rows : List FullRow
deriving DecidableEq, Repr

/-- The per-combination body (source lines 242-285). Every failure is an
uncaught exception — hence `Except.error` — except the type selection, whose
`try/except` (source lines 258-261) turns failure into a logged skip
(`Except.ok none`). On full success the combination contributes its rows. -/
def processCombo (s : ComboSteps) : Except RunErr (Option (List FullRow)) :=
  if !s.rebindOk then .error .rebindFailed
  else if !s.selectRegionOk then .error .labelNotFound
  else if !s.waitBranchOk then .error .optionsNotLoaded
  else if !s.selectBranchOk then .error .labelNotFound
  else if !s.waitTypeOk then .error .optionsNotLoaded
  else if !s.selectTypeOk then .ok none
  else if !s.submitOk then .error .submitNotFound
  else .ok (some s.rows)

/-- The sweep over the combination bodies in order (`run`'s nested loops,
source lines 240-285): an uncaught exception aborts everything after it; a
skipped combination contributes nothing; rows accumulate in `all_rows` order. -/
def runSweep : List ComboSteps → Except RunErr (List FullRow)
  | [] => .ok []
  | s :: rest =>
    match processCombo s with
    | .error e => .error e
    | .ok none => runSweep rest
    | .ok (some rows) =>
      match runSweep rest with
      | .error e => .error e
      | .ok more => .ok (rows ++ more)

/-- `pd.DataFrame(all_rows).drop_duplicates()` keeping first occurrences
(source line 289). -/
def dropDupGo {α : Type} [DecidableEq α] (seen : List α) : List α → List α
  | [] => []
  | x :: xs => if x ∈ seen then dropDupGo seen xs else x :: dropDupGo (x :: seen) xs

/-- Full-row deduplication by full-field equality, keeping first occurrences. -/
def drop_duplicates {α : Type} [DecidableEq α] (l : List α) : List α :=
  dropDupGo [] l

/-- What reaches persistence (source lines 286-299): `df.to_csv` runs only when
`run` returns normally; an uncaught exception propagates to `__main__`, which
prints the error and re-raises, so nothing is written (`none`). -/
def runAndSave (combos : List ComboSteps) : Option (List FullRow) :=
  match runSweep combos with
  | .ok rows => some (drop_duplicates rows)
  | .error _ => none

/-! ## Concrete instances used by the counterexamples and witnesses -/

/-- A record produced from `mkErow` shape, used in the sweep scenarios. -/
def sampleRow : FullRow :=
  { no_ := "1", companyName := "한국테크", applyType := "신규", address := "서울시",
    category := "정보통신", region := "서울", branch := "강남지사", typeName := "일학습병행" }

/-- A server where the type select's legal options change once a branch is
selected: before any branch selection it offers `일학습병행`, after selecting
`강남지사` it offers `IPP형` instead. -/
def branchDepEnv : SweepEnv :=
  { regionOptions := ["선택", "서울"]
    branchOptions := fun _ => ["선택", "강남지사"]
    typeOptions := fun _ b =>
      match b with
      | none => ["선택", "일학습병행"]
      | some _ => ["선택", "IPP형"] }

/-- A server whose type option set does not depend on the selected branch. -/
def branchIndepEnv : SweepEnv :=
  { regionOptions := ["선택", "서울"]
    branchOptions := fun _ => ["선택", "강남지사"]
    typeOptions := fun _ _ => ["선택", "일학습병행"] }

/-- A combination body whose `wait_options_loaded` on the branch select times
out; every other step would have succeeded. -/
def timeoutCombo : ComboSteps :=
  { rebindOk := true, selectRegionOk := true, waitBranchOk := false,
    selectBranchOk := true, waitTypeOk := true, selectTypeOk := true,
    submitOk := true, rows := [] }

/-- A combination body where every step succeeds and one row is extracted. -/
def okCombo : ComboSteps :=
  { rebindOk := true, selectRegionOk := true, waitBranchOk := true,
    selectBranchOk := true, waitTypeOk := true, selectTypeOk := true,
    submitOk := true, rows := [sampleRow] }

/-- A combination body whose type selection fails (the caught skip case,
source lines 258-261); every other step succeeds. -/
def skipCombo : ComboSteps :=
  { rebindOk := true, selectRegionOk := true, waitBranchOk := true,
    selectBranchOk := true, waitTypeOk := true, selectTypeOk := false,
    submitOk := true, rows := [] }

/-- A combination body where `click_search_or_query` finds no submit control
(fatal `RuntimeError`, source line 87). -/
def noSubmitCombo : ComboSteps :=
  { rebindOk := true, selectRegionOk := true, waitBranchOk := true,
    selectBranchOk := true, waitTypeOk := true, selectTypeOk := true,
    submitOk := false, rows := [] }

/-- A combination body where every step succeeds and the same row is extracted
twice (e.g. from a re-visited page). -/
def dupRowsCombo : ComboSteps :=
  { rebindOk := true, selectRegionOk := true, waitBranchOk := true,
    selectBranchOk := true, waitTypeOk := true, selectTypeOk := true,
    submitOk := true, rows := [sampleRow, sampleRow] }

/-- An option element whose text carries surrounding whitespace. -/
def paddedOption : OptionEl := { text := " 서울 ", value := "v01" }

/-- Three non-`select` combobox-role controls: one labelled `지역`, one
labelled `지사`, one with no accessible name at all. -/
def ctrlRegion : DomControl :=
  { tagSelect := false, idAttr := none, nameAttr := none, accName := some "지역" }

/-- See `ctrlRegion`. -/
def ctrlBranch : DomControl :=
  { tagSelect := false, idAttr := none, nameAttr := none, accName := some "지사" }

/-- See `ctrlRegion`. -/
def ctrlBlank : DomControl :=
  { tagSelect := false, idAttr := none, nameAttr := none, accName := none }

/-- A context holding the three custom comboboxes and no `<select>` element. -/
def customWidgetCtx : List DomControl := [ctrlRegion, ctrlBranch, ctrlBlank]

/-- A fingerprint recorded from a control that had neither id nor name, sitting
at ordinal position 2. -/
def ordinalOnlySig : SelectSignature :=
  { css_by_id := none, css_by_name := none, index := 2 }

/-- A `<select>` element carrying an id, and a fingerprint recording it. -/
def idCtrl : DomControl :=
  { tagSelect := true, idAttr := some "srchRegion", nameAttr := none, accName := none }

/-- See `idCtrl`. -/
def idSig : SelectSignature :=
  { css_by_id := some "srchRegion", css_by_name := none, index := 0 }

/-! ## Helper lemmas -/

theorem pagLoop_eq_range' (totalPages : Nat) :
    ∀ (remaining current : Nat),
      pagLoop totalPages remaining current
        = List.range' (current + 1) (min (totalPages - current) remaining) := by
  intro remaining
  induction remaining with
  | zero => intro current; simp [pagLoop]
  | succ rem ih =>
    intro current
    unfold pagLoop click_next_if_possible
    by_cases h : current < totalPages
    · rw [if_pos (by simpa using h), ih]
      have h1 : min (totalPages - current) (rem + 1)
          = min (totalPages - (current + 1)) rem + 1 := by omega
      rw [h1, List.range'_succ]
    · rw [if_neg (by simpa using h)]
      have h1 : min (totalPages - current) (rem + 1) = 0 := by omega
      rw [h1, List.range']

theorem paginationWalk_eq (totalPages cap : Nat) :
    paginationWalk totalPages cap = List.range' 1 (max 1 (min totalPages cap)) := by
  unfold paginationWalk
  rw [pagLoop_eq_range']
  have h1 : max 1 (min totalPages cap) = min (totalPages - 1) (cap - 1) + 1 := by
    omega
  rw [h1, List.range'_succ]

/-! ## The claims -/

/-- C1 (amended). The pagination walker terminates, visiting the pages
`1, 2, …, max 1 (min N cap)` in order: the first results page is always
parsed, then "next" is followed while both more pages and loop budget remain.
With a cap of at least `N` it therefore visits exactly the `N` available
pages. The page cap bounding the walk is `MAX_PAGES_PER_COMBO = 3` by
default — a finite default, not unbounded. -/
theorem pagination_walk_visits (totalPages cap : Nat) :
    paginationWalk totalPages cap = List.range' 1 (max 1 (min totalPages cap))
    ∧ MAX_PAGES_PER_COMBO = 3
    ∧ (1 ≤ totalPages → totalPages ≤ cap →
        (paginationWalk totalPages cap).length = totalPages) := by
  refine ⟨paginationWalk_eq totalPages cap, rfl, fun h1 h2 => ?_⟩
  rw [paginationWalk_eq, List.length_range']
  omega

/-- Witness for `pagination_walk_visits`: two result pages under the default
cap of three are both visited. -/
theorem pagination_walk_visits_witness :
    paginationWalk 2 MAX_PAGES_PER_COMBO = List.range' 1 (max 1 (min 2 MAX_PAGES_PER_COMBO))
    ∧ (paginationWalk 2 MAX_PAGES_PER_COMBO).length = 2 :=
  ⟨(pagination_walk_visits 2 MAX_PAGES_PER_COMBO).1,
    (pagination_walk_visits 2 MAX_PAGES_PER_COMBO).2.2 (by decide) (by decide)⟩

/-- C1 (counterexample). With four available pages the walker under the
default cap visits only three, not four: the default page cap is 3, not
unbounded, so the walk does not visit every available result page. -/
theorem pagination_default_cap_counterexample :
    (paginationWalk 4 MAX_PAGES_PER_COMBO).length ≠ 4
    ∧ MAX_PAGES_PER_COMBO = 3
    ∧ paginationWalk 4 MAX_PAGES_PER_COMBO = [1, 2, 3] := by decide

theorem firstFrameWithCombobox_none_iff (fs : List (Option Nat)) :
    firstFrameWithCombobox fs = none
      ↔ ∀ (j c : Nat), fs[j]? = some (some c) → c = 0 := by
  induction fs with
  | nil => simp [firstFrameWithCombobox]
  | cons hd rest ih =>
    cases hd with
    | some c =>
      by_cases hc : 0 < c
      · simp only [firstFrameWithCombobox, if_pos hc]
        apply iff_of_false
        · simp
        · intro h
          have := h 0 c (by simp)
          omega
      · have hc0 : c = 0 := by omega
        subst hc0
        simp only [firstFrameWithCombobox, if_neg hc]
        rw [Option.map_eq_none', ih]
        constructor
        · intro h j c'
          cases j with
          | zero =>
            intro hj
            simp at hj
            omega
          | succ k =>
            intro hj
            exact h k c' (by simpa using hj)
        · intro h j c' hj
          exact h (j + 1) c' (by simpa using hj)
    | none =>
      simp only [firstFrameWithCombobox]
      rw [Option.map_eq_none', ih]
      constructor
      · intro h j c'
        cases j with
        | zero =>
          intro hj
          simp at hj
        | succ k =>
          intro hj
          exact h k c' (by simpa using hj)
      · intro h j c' hj
        exact h (j + 1) c' (by simpa using hj)

theorem firstFrameWithCombobox_some_iff (fs : List (Option Nat)) (i : Nat) :
    firstFrameWithCombobox fs = some i
      ↔ (∃ c, fs[i]? = some (some c) ∧ 0 < c)
        ∧ ∀ (j : Nat), j < i → ∀ (c : Nat), fs[j]? = some (some c) → c = 0 := by
  induction fs generalizing i with
  | nil => simp [firstFrameWithCombobox]
  | cons hd rest ih =>
    cases hd with
    | some c =>
      by_cases hc : 0 < c
      · simp only [firstFrameWithCombobox, if_pos hc]
        cases i with
        | zero =>
          apply iff_of_true rfl
          exact ⟨⟨c, by simp, hc⟩, by omega⟩
        | succ k =>
          apply iff_of_false
          · simp
          · rintro ⟨_, hall⟩
            have := hall 0 (by omega) c (by simp)
            omega
      · have hc0 : c = 0 := by omega
        subst hc0
        simp only [firstFrameWithCombobox, if_neg hc]
        cases i with
        | zero =>
          apply iff_of_false
          · intro h
            obtain ⟨k, _, he⟩ := Option.map_eq_some'.mp h
            omega
          · rintro ⟨⟨c', hc', hpos⟩, _⟩
            simp at hc'
            omega
        | succ k =>
          constructor
          · intro h
            obtain ⟨m, hm, he⟩ := Option.map_eq_some'.mp h
            have hmk : m = k := by omega
            rw [hmk] at hm
            obtain ⟨⟨c', hc', hpos⟩, hall⟩ := (ih k).mp hm
            refine ⟨⟨c', by simpa using hc', hpos⟩, ?_⟩
            intro j hj c'' hj'
            cases j with
            | zero =>
              simp at hj'
              omega
            | succ j' => exact hall j' (by omega) c'' (by simpa using hj')
          · rintro ⟨⟨c', hc', hpos⟩, hall⟩
            have hrest := (ih k).mpr ⟨⟨c', by simpa using hc', hpos⟩,
              fun j hj c'' hj' => hall (j + 1) (by omega) c'' (by simpa using hj')⟩
            rw [hrest]
            rfl
    | none =>
      simp only [firstFrameWithCombobox]
      cases i with
      | zero =>
        apply iff_of_false
        · intro h
          obtain ⟨k, _, he⟩ := Option.map_eq_some'.mp h
          omega
        · rintro ⟨⟨c', hc', _⟩, _⟩
          simp at hc'
      | succ k =>
        constructor
        · intro h
          obtain ⟨m, hm, he⟩ := Option.map_eq_some'.mp h
          have hmk : m = k := by omega
          rw [hmk] at hm
          obtain ⟨⟨c', hc', hpos⟩, hall⟩ := (ih k).mp hm
          refine ⟨⟨c', by simpa using hc', hpos⟩, ?_⟩
          intro j hj c'' hj'
          cases j with
          | zero => simp at hj'
          | succ j' => exact hall j' (by omega) c'' (by simpa using hj')
        · rintro ⟨⟨c', hc', hpos⟩, hall⟩
          have hrest := (ih k).mpr ⟨⟨c', by simpa using hc', hpos⟩,
            fun j hj c'' hj' => hall (j + 1) (by omega) c'' (by simpa using hj')⟩
          rw [hrest]
          rfl

/-- C5 (amended). The Context Locator is total (never raises) but does not
score candidates: it returns the main document as soon as the main document
exposes at least one selectable control, regardless of any frame's count;
otherwise it returns the first frame (in frame order) with a positive count,
skipping frames whose query raises; otherwise the main document, in which case
no observable frame exposes any control. -/
theorem find_target_frame_first_hit (p : PageModel) :
    (0 < p.mainComboboxCount → find_target_frame p = Ctx.mainDoc)
    ∧ (∀ i, find_target_frame p = Ctx.frame i →
        p.mainComboboxCount = 0
        ∧ (∃ c, p.frames[i]? = some (some c) ∧ 0 < c)
        ∧ ∀ (j : Nat), j < i → ∀ (c : Nat), p.frames[j]? = some (some c) → c = 0)
    ∧ (p.mainComboboxCount = 0 → find_target_frame p = Ctx.mainDoc →
        ∀ (j c : Nat), p.frames[j]? = some (some c) → c = 0) := by
  refine ⟨fun h => by simp [find_target_frame, h], ?_, ?_⟩
  · intro i hi
    unfold find_target_frame at hi
    by_cases h : 0 < p.mainComboboxCount
    · rw [if_pos h] at hi
      cases hi
    · rw [if_neg h] at hi
      cases hf : firstFrameWithCombobox p.frames with
      | none =>
        rw [hf] at hi
        cases hi
      | some k =>
        rw [hf] at hi
        injection hi with hk
        subst hk
        obtain ⟨he, hall⟩ := (firstFrameWithCombobox_some_iff _ _).mp hf
        exact ⟨by omega, he, hall⟩
  · intro h0 hmain j c hj
    unfold find_target_frame at hmain
    rw [if_neg (by omega)] at hmain
    cases hf : firstFrameWithCombobox p.frames with
    | none => exact (firstFrameWithCombobox_none_iff _).mp hf j c hj
    | some k =>
      rw [hf] at hmain
      cases hmain

/-- Witness for `find_target_frame_first_hit`: a page with no main-document
combobox, an unobservable first frame and a second frame showing two
comboboxes resolves to frame 1, which indeed holds a positive count. -/
theorem find_target_frame_first_hit_witness :
    (PageModel.mk 0 [none, some 2]).mainComboboxCount = 0
    ∧ ∃ c, (PageModel.mk 0 [none, some 2]).frames[1]? = some (some c) ∧ 0 < c :=
  ⟨((find_target_frame_first_hit (PageModel.mk 0 [none, some 2])).2.1 1 rfl).1,
    ((find_target_frame_first_hit (PageModel.mk 0 [none, some 2])).2.1 1 rfl).2.1⟩

/-- C5 (counterexample). A page whose main document exposes one selectable
control while its single frame exposes five: the code returns the main
document (first hit wins, no scoring), while the spec's highest-scoring rule
picks the frame. -/
theorem find_target_frame_not_max_scoring :
    find_target_frame (PageModel.mk 1 [some 5]) = Ctx.mainDoc
    ∧ spec_find_target_frame (PageModel.mk 1 [some 5]) = Ctx.frame 0
    ∧ Ctx.mainDoc ≠ Ctx.frame 0 := by decide

theorem safeCell_oob (tds : List String) (i : Nat) (h : tds.length ≤ i) :
    safeCell tds i = "" := by
  unfold safeCell
  rw [if_neg (by omega)]

theorem extract_rows_eq_filter_map (trs : List (List String)) :
    extract_rows_from_table trs
      = (trs.filter fun r => !r.isEmpty).map (fun r =>
          ({ no_ := safeCell r 0, companyName := safeCell r 1,
             applyType := safeCell r 2, address := safeCell r 3,
             category := safeCell r 4 } : ExtractedRow)) := by
  induction trs with
  | nil => rfl
  | cons tds rest ih =>
    cases tds with
    | nil => simpa [extract_rows_from_table] using ih
    | cons c cs => simp [extract_rows_from_table, ih]

/-- C6. The parser iterates exactly the body rows with at least one data cell
(zero-cell rows contribute no record), and each kept row yields the five-field
record built with `safe`, which substitutes the empty string for every missing
trailing field instead of failing; the parser is a total function, so no row
shape can crash it. -/
theorem extract_rows_from_table_spec (trs : List (List String)) :
    extract_rows_from_table trs
      = (trs.filter fun r => !r.isEmpty).map (fun r =>
          ({ no_ := safeCell r 0, companyName := safeCell r 1,
             applyType := safeCell r 2, address := safeCell r 3,
             category := safeCell r 4 } : ExtractedRow))
    ∧ (extract_rows_from_table trs).length = (trs.filter fun r => !r.isEmpty).length
    ∧ ∀ (row : List String) (i : Nat), row.length ≤ i → safeCell row i = "" := by
  refine ⟨extract_rows_eq_filter_map trs, ?_, fun row i h => safeCell_oob row i h⟩
  rw [extract_rows_eq_filter_map trs, List.length_map]

/-- Witness for `extract_rows_from_table_spec`: a two-cell row leaves the
three trailing fields empty, and a parsed one-row table shows the padding. -/
theorem extract_rows_from_table_spec_witness :
    safeCell ["3", " 한국테크 "] 4 = ""
    ∧ extract_rows_from_table [[], ["3", " 한국테크 "]]
        = [{ no_ := "3", companyName := "한국테크", applyType := "",
             address := "", category := "" }] :=
  ⟨(extract_rows_from_table_spec []).2.2 ["3", " 한국테크 "] 4 (by decide), by decide⟩

/-- C7. `select_by_label_with_fallback` returns without running the fallback
exactly when the native `select_option` call succeeds; when it fails, the JS
fallback runs: it reports `label not found` precisely when no option's stripped
text equals the requested label, and whenever it selects a value, that value
belongs to an option whose stripped text equals the label (that option's value
is assigned and its `change` event dispatched). -/
theorem select_by_label_fallback_contract (nativeOk : Bool)
    (options : List OptionEl) (label_text : String) :
    (nativeOk = true →
      select_by_label_with_fallback nativeOk options label_text
        = SelectOutcome.nativeSelected)
    ∧ (nativeOk = false →
        select_by_label_with_fallback nativeOk options label_text
          ≠ SelectOutcome.nativeSelected
        ∧ (select_by_label_with_fallback nativeOk options label_text
             = SelectOutcome.labelNotFound label_text
            ↔ ∀ o ∈ options, strip o.text ≠ label_text)
        ∧ ∀ (v : String),
            select_by_label_with_fallback nativeOk options label_text
              = SelectOutcome.fallbackSelected v →
            ∃ o ∈ options, strip o.text = label_text ∧ o.value = v) := by
  constructor
  · intro h
    simp [select_by_label_with_fallback, h]
  · intro h
    subst h
    have key : select_by_label_with_fallback false options label_text
        = (match options.find? (fun o => strip o.text == label_text) with
           | some hit => SelectOutcome.fallbackSelected hit.value
           | none => SelectOutcome.labelNotFound label_text) := rfl
    cases hf : options.find? (fun o => strip o.text == label_text) with
    | none =>
      rw [hf] at key
      have hnone := List.find?_eq_none.mp hf
      rw [key]
      refine ⟨by simp, ?_, ?_⟩
      · constructor
        · intro _ o ho
          simpa using hnone o ho
        · intro _
          rfl
      · intro v hv
        simp at hv
    | some hit =>
      rw [hf] at key
      have hmem := List.mem_of_find?_eq_some hf
      have hpred := List.find?_some hf
      rw [key]
      refine ⟨by simp, ?_, ?_⟩
      · apply iff_of_false
        · simp
        · intro hall
          exact hall hit hmem (by simpa using hpred)
      · intro v hv
        injection hv with h'
        exact ⟨hit, hmem, by simpa using hpred, h'⟩

/-- Witness for `select_by_label_fallback_contract`: with the native call
failing on a whitespace-padded option, the fallback selects value `v01`, and
that value indeed belongs to the option whose stripped text is the label. -/
theorem select_by_label_fallback_contract_witness :
    ∃ o ∈ [paddedOption], strip o.text = "서울" ∧ o.value = "v01" :=
  ((select_by_label_fallback_contract false [paddedOption] "서울").2 rfl).2.2
    "v01" (by decide)

theorem list_options_text_eq (opts : List String) :
    list_options_text opts = (opts.map strip).filter (fun s => s != "") := by
  induction opts with
  | nil => rfl
  | cons o rest ih =>
    by_cases h : strip o = "" <;> simp [list_options_text, h, ih]

theorem mem_list_options_text {opts : List String} {s : String}
    (h : s ∈ list_options_text opts) : s ≠ "" ∧ ∃ o ∈ opts, s = strip o := by
  rw [list_options_text_eq, List.mem_filter] at h
  obtain ⟨hm, hcond⟩ := h
  rw [List.mem_map] at hm
  obtain ⟨o, ho, rfl⟩ := hm
  exact ⟨by simpa using hcond, o, ho, rfl⟩

/-- C10. Option enumeration returns the stripped option texts in document
order with every option whose stripped text is empty silently removed — not
only the named placeholder — so no whitespace-only option ever reaches the
subregion or category iteration lists of the sweep. -/
theorem list_options_text_spec (opts : List String) :
    list_options_text opts = (opts.map strip).filter (fun s => s != "")
    ∧ (∀ s ∈ list_options_text opts, s ≠ "" ∧ ∃ o ∈ opts, s = strip o)
    ∧ ∀ (env : SweepEnv) (combo : String × String × String),
        combo ∈ codeCombos env → combo.2.1 ≠ "" ∧ combo.2.2 ≠ "" := by
  refine ⟨list_options_text_eq opts, fun s hs => mem_list_options_text hs, ?_⟩
  intro env combo hc
  simp only [codeCombos, List.mem_flatMap] at hc
  obtain ⟨region, _, hc⟩ := hc
  obtain ⟨branch, hb, hc⟩ := hc
  rw [List.mem_map] at hc
  obtain ⟨typ, ht, rfl⟩ := hc
  exact ⟨(mem_list_options_text (List.mem_of_mem_filter hb)).1,
    (mem_list_options_text (List.mem_of_mem_filter ht)).1⟩

/-- Witness for `list_options_text_spec`: the enumeration of a padded and a
whitespace-only option yields only the stripped non-empty label. -/
theorem list_options_text_spec_witness :
    ("서울" : String) ≠ "" ∧ ∃ o ∈ [" 서울 ", "  "], ("서울" : String) = strip o :=
  (list_options_text_spec [" 서울 ", "  "]).2.1 "서울" (by decide)

theorem flatMap_congr {α β : Type} {l : List α} {f g : α → List β}
    (h : ∀ a ∈ l, f a = g a) : l.flatMap f = l.flatMap g := by
  induction l with
  | nil => rfl
  | cons x xs ih =>
    simp only [List.flatMap_cons]
    rw [h x (List.mem_cons_self x xs), ih fun a ha => h a (List.mem_cons_of_mem x ha)]

/-- C2 (amended). The subregion and category option lists are read live once
per region — after selecting that region but before selecting any subregion —
and are then reused (cached) for every (subregion, category) combination of
that region; they are re-read only when the region changes. Consequently,
whenever the server's category option set does not depend on the selected
subregion, the sweep coincides with live per-combination after-upstream
reads. -/
theorem combos_live_of_branch_independent (env : SweepEnv)
    (h : ∀ (r b : String), env.typeOptions r (some b) = env.typeOptions r none) :
    codeCombos env = specLiveCombos env := by
  unfold codeCombos specLiveCombos
  refine flatMap_congr (fun region _ => ?_)
  refine flatMap_congr (fun branch _ => ?_)
  rw [h region branch]

/-- Witness for `combos_live_of_branch_independent`: on a branch-independent
server the cached sweep equals the live-read sweep. -/
theorem combos_live_of_branch_independent_witness :
    codeCombos branchIndepEnv = specLiveCombos branchIndepEnv :=
  combos_live_of_branch_independent branchIndepEnv (fun _ _ => rfl)

/-- C2 (counterexample). On a server whose category options change once a
subregion is selected, the sweep still iterates the category list read before
any subregion selection: the combination driven by the code uses the cached
value `일학습병행`, while live after-upstream reads would give `IPP형`. The
option values are therefore cached across the region's combinations, not read
live per combination after the upstream selection. -/
theorem combos_cached_per_region_counterexample :
    codeCombos branchDepEnv ≠ specLiveCombos branchDepEnv
    ∧ codeCombos branchDepEnv = [("서울", "강남지사", "일학습병행")]
    ∧ specLiveCombos branchDepEnv = [("서울", "강남지사", "IPP형")] := by decide

/-- C3 (amended). A timeout of `wait_options_loaded` (default timeout
10000 ms) inside a combination body is an uncaught `TimeoutError`: it aborts
the entire sweep, discarding every remaining combination — it does not merely
abandon the current combination. Only a failed category selection is caught
and skips just the current combination, letting the sweep continue. -/
theorem wait_timeout_aborts_sweep (s : ComboSteps) (rest : List ComboSteps) :
    (s.rebindOk = true → s.selectRegionOk = true → s.waitBranchOk = false →
      runSweep (s :: rest) = Except.error RunErr.optionsNotLoaded)
    ∧ (s.rebindOk = true → s.selectRegionOk = true → s.waitBranchOk = true →
        s.selectBranchOk = true → s.waitTypeOk = false →
      runSweep (s :: rest) = Except.error RunErr.optionsNotLoaded)
    ∧ (s.rebindOk = true → s.selectRegionOk = true → s.waitBranchOk = true →
        s.selectBranchOk = true → s.waitTypeOk = true → s.selectTypeOk = false →
      runSweep (s :: rest) = runSweep rest)
    ∧ wait_options_timeout_ms = 10000 := by
  refine ⟨?_, ?_, ?_, rfl⟩ <;> intros <;> simp_all [runSweep, processCombo]

/-- Witness for `wait_timeout_aborts_sweep`: a combination whose category
selection fails is skipped and the sweep continues with the rest. -/
theorem wait_timeout_aborts_sweep_witness :
    runSweep [skipCombo, okCombo] = runSweep [okCombo] :=
  (wait_timeout_aborts_sweep skipCombo [okCombo]).2.2.1 rfl rfl rfl rfl rfl rfl

/-- C3 (counterexample). A sweep of two combinations where the first one's
branch-options wait times out: the run ends with the error instead of
continuing, even though the second combination on its own would have
succeeded and contributed a record. -/
theorem wait_timeout_counterexample :
    runSweep [timeoutCombo, okCombo] = Except.error RunErr.optionsNotLoaded
    ∧ runSweep [okCombo] = Except.ok [sampleRow]
    ∧ (runSweep [timeoutCombo, okCombo]).isOk = false :=
  ⟨rfl, rfl, rfl⟩

/-- C4 (amended). A fatal (uncaught) error at any combination propagates out
of `run` before `df.to_csv` is reached: the run reports the error and the
partial record set accumulated so far is discarded, not handed to
persistence. Records reach persistence only when the whole sweep completes
without a fatal error. -/
theorem fatal_error_discards_records (pre : List ComboSteps) (s : ComboSteps)
    (rest : List ComboSteps) (e : RunErr)
    (hpre : ∀ c ∈ pre, ∃ o, processCombo c = Except.ok o)
    (hs : processCombo s = Except.error e) :
    runSweep (pre ++ s :: rest) = Except.error e
    ∧ runAndSave (pre ++ s :: rest) = none := by
  have main : ∀ (l : List ComboSteps),
      (∀ c ∈ l, ∃ o, processCombo c = Except.ok o) →
      runSweep (l ++ s :: rest) = Except.error e := by
    intro l
    induction l with
    | nil =>
      intro _
      simp [runSweep, hs]
    | cons c cs ih =>
      intro hp
      obtain ⟨o, ho⟩ := hp c (List.mem_cons_self c cs)
      have ih' := ih fun c' hc' => hp c' (List.mem_cons_of_mem c hc')
      cases o with
      | none => simpa [runSweep, ho] using ih'
      | some rows => simp [runSweep, ho, ih']
  have hm := main pre hpre
  exact ⟨hm, by simp [runAndSave, hm]⟩

/-- Witness for `fatal_error_discards_records`: one successful combination
followed by a missing submit control leaves nothing persisted. -/
theorem fatal_error_discards_records_witness :
    runAndSave [okCombo, noSubmitCombo] = none :=
  (fatal_error_discards_records [okCombo] noSubmitCombo [] RunErr.submitNotFound
    (fun c hc => by
      rw [List.mem_singleton] at hc
      subst hc
      exact ⟨some [sampleRow], rfl⟩)
    rfl).2

/-- C4 (counterexample). A combination that extracts a record, followed by one
whose submit control is missing (fatal): alone, the first combination's record
would be persisted, but with the fatal error the run ends in the error and
persistence receives nothing — the partial record set is lost, not handed
off. -/
theorem fatal_error_counterexample :
    runSweep [okCombo] = Except.ok [sampleRow]
    ∧ runAndSave [okCombo] = some [sampleRow]
    ∧ runSweep [okCombo, noSubmitCombo] = Except.error RunErr.submitNotFound
    ∧ runAndSave [okCombo, noSubmitCombo] = none :=
  ⟨rfl, rfl, rfl, rfl⟩

/-- C8 (amended). `SelectSignature.query` attempts its strategies strictly in
order — id match over `<select>` elements, name match over `<select>`
elements, ordinal position among `<select>` elements, and as a last resort
ordinal position among all combobox-role controls (a broadened ordinal query,
not a second full classification pass) — returning the first strategy's
result; it fails (raises) exactly when all four strategies yield nothing. -/
theorem query_strategy_order (sig : SelectSignature) (ctx : List DomControl) :
    sig.query ctx
      = optOr (sig.css_by_id.bind fun i => selectById ctx i)
          (optOr (sig.css_by_name.bind fun n => selectByName ctx n)
            (optOr ((ctx.filter fun c => c.tagSelect).get? sig.index)
              (ctx.get? sig.index)))
    ∧ (sig.query ctx = none ↔
        (sig.css_by_id.bind fun i => selectById ctx i) = none
        ∧ (sig.css_by_name.bind fun n => selectByName ctx n) = none
        ∧ (ctx.filter fun c => c.tagSelect).get? sig.index = none
        ∧ ctx.get? sig.index = none)
    ∧ ∀ (c : DomControl),
        (sig.css_by_id.bind fun i => selectById ctx i) = some c →
        sig.query ctx = some c := by
  unfold SelectSignature.query optOr
  cases sig.css_by_id.bind fun i => selectById ctx i with
  | some c => simp
  | none =>
    cases sig.css_by_name.bind fun n => selectByName ctx n with
    | some c => simp
    | none =>
      cases (ctx.filter fun c => c.tagSelect).get? sig.index with
      | some c => simp
      | none =>
        cases ctx.get? sig.index with
        | some c => simp
        | none => simp

/-- Witness for `query_strategy_order`: a fingerprint recording an id resolves
to the `<select>` carrying that id via the first strategy. -/
theorem query_strategy_order_witness :
    SelectSignature.query idSig [idCtrl] = some idCtrl :=
  (query_strategy_order idSig [idCtrl]).2.2 idCtrl rfl

/-- C8 (counterexample). In a context of three custom (non-`<select>`)
combobox widgets, a fingerprint with neither id nor name and ordinal 2
resolves through the last-resort combobox-ordinal step to the unlabeled third
widget — a control that no classification pass (accessible-label match for
any of the three roles) would return, so the last resort is not a second full
classification pass. -/
theorem query_last_resort_counterexample :
    SelectSignature.query ordinalOnlySig customWidgetCtx = some ctrlBlank
    ∧ classifyByLabel customWidgetCtx RoleHint.region = some ctrlRegion
    ∧ classifyByLabel customWidgetCtx RoleHint.region ≠ some ctrlBlank
    ∧ classifyByLabel customWidgetCtx RoleHint.subregion ≠ some ctrlBlank
    ∧ classifyByLabel customWidgetCtx RoleHint.category ≠ some ctrlBlank
    ∧ ctrlRegion ≠ ctrlBlank := by decide

theorem mem_dropDupGo {α : Type} [DecidableEq α] (seen l : List α) (a : α) :
    a ∈ dropDupGo seen l ↔ a ∈ l ∧ a ∉ seen := by
  induction l generalizing seen with
  | nil => simp [dropDupGo]
  | cons x xs ih =>
    by_cases hx : x ∈ seen
    · simp only [dropDupGo, if_pos hx, ih, List.mem_cons]
      constructor
      · rintro ⟨hm, hs⟩
        exact ⟨Or.inr hm, hs⟩
      · rintro ⟨rfl | hm, hs⟩
        · exact absurd hx hs
        · exact ⟨hm, hs⟩
    · simp only [dropDupGo, if_neg hx, List.mem_cons, ih]
      constructor
      · rintro (rfl | ⟨hm, hs⟩)
        · exact ⟨Or.inl rfl, hx⟩
        · exact ⟨Or.inr hm, fun h => hs (Or.inr h)⟩
      · rintro ⟨rfl | hm, hs⟩
        · exact Or.inl rfl
        · rcases eq_or_ne a x with rfl | hax
          · exact Or.inl rfl
          · exact Or.inr ⟨hm, fun h => h.elim hax hs⟩

theorem nodup_dropDupGo {α : Type} [DecidableEq α] (seen l : List α) :
    (dropDupGo seen l).Nodup := by
  induction l generalizing seen with
  | nil => simp [dropDupGo]
  | cons x xs ih =>
    by_cases hx : x ∈ seen
    · simpa [dropDupGo, hx] using ih seen
    · rw [show dropDupGo seen (x :: xs) = x :: dropDupGo (x :: seen) xs from by
        simp [dropDupGo, hx]]
      rw [List.nodup_cons]
      exact ⟨fun hmem => ((mem_dropDupGo (x :: seen) xs x).mp hmem).2
        (List.mem_cons_self x seen), ih (x :: seen)⟩

/-- C9. Before handoff the accumulated record set is deduplicated by
full-field equality: the persisted list is duplicate-free, contains exactly
the records that occurred in the sweep's output, record equality is exactly
agreement on all eight fields (the five extracted fields and the three
combination labels), and every successful run hands persistence the
deduplicated list. -/
theorem dedup_full_field_equality (l : List FullRow) :
    (drop_duplicates l).Nodup
    ∧ (∀ x : FullRow, x ∈ drop_duplicates l ↔ x ∈ l)
    ∧ (∀ a b : FullRow, a = b ↔
        (a.no_ = b.no_ ∧ a.companyName = b.companyName ∧ a.applyType = b.applyType
          ∧ a.address = b.address ∧ a.category = b.category
          ∧ a.region = b.region ∧ a.branch = b.branch ∧ a.typeName = b.typeName))
    ∧ ∀ (combos : List ComboSteps) (rows : List FullRow),
        runSweep combos = Except.ok rows →
        runAndSave combos = some (drop_duplicates rows) := by
  refine ⟨nodup_dropDupGo [] l, ?_, ?_, ?_⟩
  · intro x
    rw [drop_duplicates, mem_dropDupGo]
    simp
  · intro a b
    constructor
    · rintro rfl
      exact ⟨rfl, rfl, rfl, rfl, rfl, rfl, rfl, rfl⟩
    · rintro ⟨h1, h2, h3, h4, h5, h6, h7, h8⟩
      rcases a with ⟨⟨a1, a2, a3, a4, a5⟩, a6, a7, a8⟩
      rcases b with ⟨⟨b1, b2, b3, b4, b5⟩, b6, b7, b8⟩
      simp_all
  · intro combos rows h
    simp [runAndSave, h]

/-- Witness for `dedup_full_field_equality`: a successful run that extracted
the same record twice persists it once. -/
theorem dedup_full_field_equality_witness :
    runAndSave [dupRowsCombo] = some (drop_duplicates [sampleRow, sampleRow])
    ∧ drop_duplicates [sampleRow, sampleRow] = [sampleRow] :=
  ⟨(dedup_full_field_equality []).2.2.2 [dupRowsCombo] [sampleRow, sampleRow] rfl,
    by decide⟩

end ScrapePdms
